import Mathlib

/-!
# Shift Lifecycle & Cash Reconciliation Engine — verification development

Shallow embedding of the shift open/close/resolve engine of the petrol-pump
reconciliation backend (`supabase-backend/services/ShiftService.js`, routes
`supabase-backend/routes/shifts.js` and `supabase-backend/routes/dispensers.js`,
validators `ValidationUtils`).

Modelling conventions:
* JavaScript numbers holding readings, prices and money amounts are modelled
  as exact rationals (`ℚ`); the behaviour under scrutiny (comparisons,
  additions, multiplications, the `Math.abs(x) > 1` threshold test) does not
  depend on binary-float artefacts.
* The Supabase store is modelled as an association list of shift rows keyed by
  a numeric id, plus an association list of dispenser rows; `.single()` row
  fetches become association-list lookups, `insert` appends a row with a fresh
  id, `update ... eq(id)` rewrites the rows with the given key.
* Thrown service errors and express-validator rejections become constructors
  of an error type carried by `Except`; a throw happens before any write, so
  an erroneous call leaves the store untouched, exactly as in the source.
* Clock values (`new Date().toISOString()`) are passed in as an abstract
  timestamp argument.
-/

namespace PumpShift

/-- Shift status column values: 'ACTIVE' | 'COMPLETED' | 'FLAGGED'. -/
inductive ShiftStatus
  | ACTIVE
  | COMPLETED
  | FLAGGED
  deriving DecidableEq, Repr

/-- User roles from the auth layer: 'OWNER' | 'MANAGER' | 'OPERATOR'. -/
inductive Role
  | OWNER
  | MANAGER
  | OPERATOR
  deriving DecidableEq, Repr

/-- The discrepancy JSON object built by `ShiftService.endShift` and mutated by
`ShiftService.resolveDiscrepancy`: `{ amount, reason, resolved }`, later
extended with `resolved_by` and `resolved_at`. -/
structure Discrepancy where
  amount : ℚ
  reason : String
  resolved : Bool
  resolved_by : Option String := none
  resolved_at : Option ℕ := none
  deriving DecidableEq, Repr

/-- A row of the `shifts` table, restricted to the columns the engine reads or
writes. `digital_payments` is the raw JSON object of named sub-totals supplied
by the caller, kept as an association list of field name to amount. -/
structure Shift where
  dispenser_id : ℕ
  operator_id : String
  shift_type : String
  start_time : ℕ
  end_time : Option ℕ := none
  opening_reading : ℚ
  closing_reading : Option ℚ := none
  fuel_sold : Option ℚ := none
  expected_cash : Option ℚ := none
  actual_cash : Option ℚ := none
  digital_payments : Option (List (String × ℚ)) := none
  cash_used : Option ℚ := none
  cash_usage_reason : Option String := none
  notes : Option String := none
  discrepancy : Option Discrepancy := none
  status : ShiftStatus
  deriving DecidableEq, Repr

/-- A row of the `dispensers` table, restricted to the columns the shift
engine and the daily-rates price update read: the shift engine uses
`current_price`; `DispenserService.setDailyRates` selects rows by
`petrol_pump_id`, `fuel_type` and `is_active`. -/
structure Dispenser where
  fuel_type : String
  petrol_pump_id : ℕ
  current_price : ℚ
  is_active : Bool
  deriving DecidableEq, Repr

/-- The persistent store: dispenser rows and shift rows, keyed by id. -/
structure DB where
  dispensers : List (ℕ × Dispenser)
  shifts : List (ℕ × Shift)
  deriving DecidableEq, Repr

/-- Error kinds: each constructor corresponds to one `throw new Error(...)` in
`ShiftService` or one rejection in the route layer.
* `DuplicateActiveShift` — 'There is already an active shift for this dispenser'
* `DispenserNotFound` — 'Dispenser not found'
* `ShiftNotFound` — 'Shift not found'
* `NotActive` — 'Only active shifts can be ended'
* `ClosingLessThanOpening` — 'Closing reading cannot be less than opening reading'
* `NotFlagged` — 'Only flagged shifts can be resolved'
* `Forbidden` — the `authorizeRoles('OWNER', 'MANAGER')` middleware rejection
* `MissingReason` — the `body('reason').notEmpty().isLength({max:500})` rejection
* `ValidationFailed` — any other express-validator rejection on a route. -/
inductive SvcError
  | DuplicateActiveShift
  | DispenserNotFound
  | ShiftNotFound
  | NotActive
  | ClosingLessThanOpening
  | NotFlagged
  | Forbidden
  | MissingReason
  | ValidationFailed
  deriving DecidableEq, Repr

/-- `.single()` fetch of a row by id: first row with the given key. -/
def rowFind (k : ℕ) : List (ℕ × Shift) → Option Shift
  | [] => none
  | p :: rest => if p.1 = k then some p.2 else rowFind k rest

/-- Lookup of a dispenser row by id. -/
def dispFind (k : ℕ) : List (ℕ × Dispenser) → Option Dispenser
  | [] => none
  | p :: rest => if p.1 = k then some p.2 else dispFind k rest

/-- The duplicate-check query of `startShift`:
`.eq('dispenser_id', dispenserId).eq('status', 'ACTIVE').single()`.
Supabase's `.single()` returns a row only when exactly one row matches; with
zero or two-or-more matches it reports an error and a null row, and
`startShift` ignores `checkError`, so only the exactly-one case makes
`activeShift` non-null (and with two or more ACTIVE rows the insert would
proceed). -/
def findActiveShift (d : ℕ) (l : List (ℕ × Shift)) : Option (ℕ × Shift) :=
  match l.filter
      (fun p => decide (p.2.dispenser_id = d ∧ p.2.status = ShiftStatus.ACTIVE)) with
  | [p] => some p
  | _ => none

/-- `update(...).eq('id', shiftId)`: rewrite the rows with the given key. -/
def rowUpdate (k : ℕ) (s : Shift) (l : List (ℕ × Shift)) : List (ℕ × Shift) :=
  l.map (fun p => if p.1 = k then (k, s) else p)

/-- Fresh id for an inserted shift row. -/
def nextShiftId (db : DB) : ℕ := (db.shifts.map Prod.fst).foldr max 0 + 1

/-- Request body of `POST /api/shifts` as destructured by `startShift`:
`{ dispenserId, shiftType, openingReading, notes }`. -/
structure StartData where
  dispenserId : ℕ
  shiftType : String
  openingReading : ℚ
  notes : Option String := none
  deriving DecidableEq, Repr

/-- Request body of `PUT /api/shifts/:id/end` as destructured by `endShift`,
with the source's defaults `actualCash = 0`, `digitalPayments = {}`,
`cashUsed = 0` already applied. -/
structure EndData where
  closingReading : ℚ
  actualCash : ℚ := 0
  digitalPayments : List (String × ℚ) := []
  cashUsed : ℚ := 0
  cashUsageReason : Option String := none
  notes : Option String := none
  deriving DecidableEq, Repr

/-- JSON field access with the source's `|| 0` default:
`digitalPayments.upi || 0`. -/
def dpGet (dp : List (String × ℚ)) (k : String) : ℚ :=
  match dp.lookup k with
  | some v => v
  | none => 0

/-- `totalDigitalPayments` exactly as computed by `endShift`:
`(digitalPayments.upi || 0) + (digitalPayments.card || 0) + (digitalPayments.other || 0)`. -/
def totalDigital (dp : List (String × ℚ)) : ℚ :=
  dpGet dp "upi" + dpGet dp "card" + dpGet dp "other"

/-- The sum of all named sub-totals of `digitalPayments`, whatever their names.
This follows the spec sentence "total_digital = sum of digitalPayments
sub-totals" and exists only to be compared with the source's `totalDigital`. -/
def totalDigitalSpec (dp : List (String × ℚ)) : ℚ :=
  (dp.map Prod.snd).sum

/-- `Math.abs` on an exact rational. -/
def ratAbs (q : ℚ) : ℚ := if q < 0 then -q else q

/-- The category text `endShift` stores in the discrepancy record:
`discrepancyAmount > 0 ? 'Excess cash' : 'Cash shortage'`. -/
def categoryText (amount : ℚ) : String :=
  if 0 < amount then "Excess cash" else "Cash shortage"

/-- `ShiftService.startShift` (service layer). Checks for an existing ACTIVE
shift on the dispenser, verifies the dispenser exists, then inserts a new
ACTIVE shift row. Note: the inserted row carries no unit price; the source's
insert lists only dispenser_id, operator_id, shift_type, start_time,
opening_reading, notes, status. -/
def startShift (db : DB) (d : StartData) (userId : String) (now : ℕ) :
    Except SvcError (DB × ℕ × Shift) :=
  match findActiveShift d.dispenserId db.shifts with
  | some _ => .error .DuplicateActiveShift
  | none =>
    match dispFind d.dispenserId db.dispensers with
    | none => .error .DispenserNotFound
    | some _ =>
      let s : Shift :=
        { dispenser_id := d.dispenserId
          operator_id := userId
          shift_type := d.shiftType
          start_time := now
          opening_reading := d.openingReading
          notes := d.notes
          status := .ACTIVE }
      let id := nextShiftId db
      .ok ({ db with shifts := db.shifts ++ [(id, s)] }, id, s)

/-- `discrepancyAmount` of `endShift`: `totalReceived - expectedTotal` where
`totalReceived = actualCash + totalDigitalPayments` and
`expectedTotal = expectedCash - cashUsed`, with
`expectedCash = fuelSold * currentShift.dispensers.current_price` and
`fuelSold = closingReading - currentShift.opening_reading`. -/
def discrepancyAmountOf (s : Shift) (disp : Dispenser) (e : EndData) : ℚ :=
  (e.actualCash + totalDigital e.digitalPayments) -
    ((e.closingReading - s.opening_reading) * disp.current_price - e.cashUsed)

/-- The update payload of `endShift`: every column listed in the source's
`.update({...})` call, on top of the fetched row. The shift is FLAGGED with a
fresh discrepancy record exactly when `Math.abs(discrepancyAmount) > 1`,
COMPLETED with a null discrepancy otherwise. -/
def closeFields (s : Shift) (disp : Dispenser) (e : EndData) (now : ℕ) : Shift :=
  let fuelSold := e.closingReading - s.opening_reading
  let expectedCash := fuelSold * disp.current_price
  let d := discrepancyAmountOf s disp e
  let flagged := 1 < ratAbs d
  { s with
    end_time := some now
    closing_reading := some e.closingReading
    fuel_sold := some fuelSold
    expected_cash := some expectedCash
    actual_cash := some e.actualCash
    digital_payments := some e.digitalPayments
    cash_used := some e.cashUsed
    cash_usage_reason := e.cashUsageReason
    notes := e.notes
    status := if flagged then .FLAGGED else .COMPLETED
    discrepancy :=
      if flagged then
        some { amount := d, reason := categoryText d, resolved := false }
      else none }

/-- `ShiftService.endShift` (service layer). Fetches the shift (with its
dispenser join), requires status ACTIVE, rejects `closingReading <
opening_reading`, then computes fuel sold, expected cash (from the
dispenser's `current_price` as read now, at close time), the digital total
(upi + card + other only), the discrepancy amount, and writes `closeFields`. -/
def endShift (db : DB) (shiftId : ℕ) (e : EndData) (now : ℕ) :
    Except SvcError (DB × Shift) :=
  match rowFind shiftId db.shifts with
  | none => .error .ShiftNotFound
  | some s =>
    if s.status ≠ .ACTIVE then .error .NotActive
    else if e.closingReading < s.opening_reading then .error .ClosingLessThanOpening
    else
      match dispFind s.dispenser_id db.dispensers with
      | none => .error .DispenserNotFound
      | some disp =>
        let s' := closeFields s disp e now
        .ok ({ db with shifts := rowUpdate shiftId s' db.shifts }, s')

/-- The update payload of `resolveDiscrepancy`: the spread
`{ ...currentShift.discrepancy, resolved: true, reason, resolved_by,
resolved_at }` plus `status: 'COMPLETED'`. The caller's reason overwrites the
stored reason field. -/
def resolveFields (s : Shift) (reason userId : String) (now : ℕ) : Shift :=
  let d0 : Discrepancy :=
    match s.discrepancy with
    | some d => d
    | none => { amount := 0, reason := "", resolved := false }
  let d' : Discrepancy :=
    { d0 with
      resolved := true
      reason := reason
      resolved_by := some userId
      resolved_at := some now }
  { s with discrepancy := some d', status := .COMPLETED }

/-- `ShiftService.resolveDiscrepancy` (service layer). Fetches the shift,
requires status FLAGGED, then spreads the stored discrepancy object with
`resolved := true`, the caller's reason (overwriting the stored one),
`resolved_by` and `resolved_at`, and sets status COMPLETED. The source spreads
`...currentShift.discrepancy`; a FLAGGED row without a discrepancy object
yields a record with defaulted amount, as the JS spread of null would yield an
object without those fields. -/
def resolveDiscrepancy (db : DB) (shiftId : ℕ) (reason : String)
    (userId : String) (now : ℕ) : Except SvcError (DB × Shift) :=
  match rowFind shiftId db.shifts with
  | none => .error .ShiftNotFound
  | some s =>
    if s.status ≠ .FLAGGED then .error .NotFlagged
    else
      let s' := resolveFields s reason userId now
      .ok ({ db with shifts := rowUpdate shiftId s' db.shifts }, s')

/-- `POST /api/shifts` route validation (`routes/shifts.js`):
`shiftType` must be one of MORNING/EVENING/NIGHT, `openingReading` a float
with min 0, `notes` optional with max length 1000; then the service runs. -/
def startShiftRoute (db : DB) (d : StartData) (userId : String) (now : ℕ) :
    Except SvcError (DB × ℕ × Shift) :=
  if d.shiftType ≠ "MORNING" ∧ d.shiftType ≠ "EVENING" ∧ d.shiftType ≠ "NIGHT" then
    .error .ValidationFailed
  else if d.openingReading < 0 then .error .ValidationFailed
  else if d.notes.any (fun n => decide (1000 < n.length)) then
    .error .ValidationFailed
  else startShift db d userId now

/-- `PUT /api/shifts/:id/end` route validation (`routes/shifts.js`):
`closingReading` min 0, optional `actualCash` / `digitalPayments.upi` /
`digitalPayments.card` / `digitalPayments.other` / `cashUsed` min 0, optional
`cashUsageReason` max length 500, optional `notes` max length 1000. No rule
relates `cashUsed` to `cashUsageReason`. -/
def endShiftRoute (db : DB) (shiftId : ℕ) (e : EndData) (now : ℕ) :
    Except SvcError (DB × Shift) :=
  if e.closingReading < 0 ∨ e.actualCash < 0 ∨ e.cashUsed < 0 then
    .error .ValidationFailed
  else if (e.digitalPayments.lookup "upi").any (fun v => decide (v < 0)) then
    .error .ValidationFailed
  else if (e.digitalPayments.lookup "card").any (fun v => decide (v < 0)) then
    .error .ValidationFailed
  else if (e.digitalPayments.lookup "other").any (fun v => decide (v < 0)) then
    .error .ValidationFailed
  else if e.cashUsageReason.any (fun r => decide (500 < r.length)) then
    .error .ValidationFailed
  else if e.notes.any (fun n => decide (1000 < n.length)) then
    .error .ValidationFailed
  else endShift db shiftId e now

/-- `PUT /api/shifts/:id/resolve` route (`routes/shifts.js`): the
`authorizeRoles('OWNER', 'MANAGER')` middleware runs first, then
`body('reason').notEmpty().isLength({ max: 500 })`, then the service. -/
def resolveRoute (db : DB) (shiftId : ℕ) (reason : Option String) (role : Role)
    (userId : String) (now : ℕ) : Except SvcError (DB × Shift) :=
  if role ≠ .OWNER ∧ role ≠ .MANAGER then .error .Forbidden
  else
    match reason with
    | none => .error .MissingReason
    | some r =>
      if r.length = 0 ∨ 500 < r.length then .error .MissingReason
      else resolveDiscrepancy db shiftId r userId now

/-- The dispenser-price effect of `DispenserService.setDailyRates` (reached
via `POST /api/dispensers/pump/:pumpId/rates`, OWNER/MANAGER only): for each
supplied rate the source runs `update({ current_price: rate.price })
.eq('petrol_pump_id', pumpId).eq('fuel_type', rate.fuelType)
.eq('is_active', true)` in a loop. This is the code path that changes a
dispenser's `current_price`. The `daily_rates` bookkeeping rows the source
also inserts are not modelled: nothing in the shift engine reads them. -/
def setDailyRates (db : DB) (pumpId : ℕ) (rates : List (String × ℚ)) : DB :=
  { db with
    dispensers := rates.foldl
      (fun l rate => l.map (fun q =>
        if q.2.petrol_pump_id = pumpId ∧ q.2.fuel_type = rate.1 ∧ q.2.is_active = true
        then (q.1, { q.2 with current_price := rate.2 }) else q))
      db.dispensers }

/-- One externally triggered operation against the store. -/
inductive Op
  | start (d : StartData) (userId : String) (now : ℕ)
  | close (shiftId : ℕ) (e : EndData) (now : ℕ)
  | resolve (shiftId : ℕ) (reason : Option String) (role : Role) (userId : String) (now : ℕ)
  | setRates (pumpId : ℕ) (rates : List (String × ℚ))
  deriving DecidableEq

/-- Effect of one operation on the store; a rejected request leaves the store
untouched (every throw in the service happens before its write). -/
def step (db : DB) : Op → DB
  | .start d userId now =>
    match startShiftRoute db d userId now with
    | .ok (db', _, _) => db'
    | .error _ => db
  | .close shiftId e now =>
    match endShiftRoute db shiftId e now with
    | .ok (db', _) => db'
    | .error _ => db
  | .resolve shiftId reason role userId now =>
    match resolveRoute db shiftId reason role userId now with
    | .ok (db', _) => db'
    | .error _ => db
  | .setRates pumpId rates => setDailyRates db pumpId rates

/-- Run a sequence of operations. -/
def run (db : DB) (ops : List Op) : DB := ops.foldl step db

/-! ## The repository's own validators (`src/utils/ValidationUtils.ts`) -/

/-- Error kinds of `ValidationUtils.validateStockReading`; the source pushes
message strings, one per failed check. -/
inductive ReadingError
  | NotNumericOrNegative
  | TooHigh
  | NotMonotonic
  deriving DecidableEq, Repr

/-- `ValidationUtils.validateStockReading(reading, previousReading?)`:
rejects negative readings, readings above 999999, and — when a previous
reading is supplied — readings strictly below it (the sequential check). The
`Number.isFinite` branch cannot fire on exact rationals. The result is valid
exactly when no error was pushed. -/
def validateStockReading (reading : ℚ) (previousReading : Option ℚ) :
    List ReadingError :=
  (if reading < 0 then [ReadingError.NotNumericOrNegative]
   else if 999999 < reading then [ReadingError.TooHigh]
   else []) ++
  (match previousReading with
   | some prev => if reading < prev then [ReadingError.NotMonotonic] else []
   | none => [])

/-- `useShiftValidation`'s `cashUsageReason` custom rule
(`src/hooks/useFormValidation.ts`): returns an error message only when a
reason is present, non-blank and shorter than 5 characters; an absent or
empty reason passes (`if (!value) return null`), as the source's own comment
concedes ("This validation is simplified since we can't access formData
here"). -/
def cashUsageReasonCheck (value : Option String) : Option String :=
  match value with
  | none => none
  | some v =>
    if v = "" then none
    else if 0 < v.trim.length ∧ v.trim.length < 5 then
      some "Reason must be at least 5 characters"
    else none

/-! ## Invariants -/

/-- Number of ACTIVE shift rows for one dispenser. -/
def countActiveFor (d : ℕ) (l : List (ℕ × Shift)) : ℕ :=
  (l.filter
    (fun p => decide (p.2.dispenser_id = d ∧ p.2.status = ShiftStatus.ACTIVE))).length

/-- At most one ACTIVE shift row exists per dispenser. -/
def atMostOneActive (db : DB) : Prop :=
  ∀ d : ℕ, countActiveFor d db.shifts ≤ 1

/-- Every shift row with a closing reading satisfies closing ≥ opening. -/
def readingsOk (db : DB) : Prop :=
  ∀ p ∈ db.shifts, ∀ c : ℚ, p.2.closing_reading = some c → p.2.opening_reading ≤ c

/-- The reading and cash columns fixed at close time agree between two rows. -/
def finFieldsEq (s s' : Shift) : Prop :=
  s.opening_reading = s'.opening_reading ∧
  s.closing_reading = s'.closing_reading ∧
  s.fuel_sold = s'.fuel_sold ∧
  s.expected_cash = s'.expected_cash ∧
  s.actual_cash = s'.actual_cash ∧
  s.digital_payments = s'.digital_payments ∧
  s.cash_used = s'.cash_used

/-! ## Helper lemmas -/

theorem ratAbs_eq_abs (q : ℚ) : ratAbs q = |q| := by
  unfold ratAbs
  rcases lt_or_le q 0 with h | h
  · rw [if_pos h, abs_of_neg h]
  · rw [if_neg (not_lt.mpr h), abs_of_nonneg h]

theorem rowFind_append_some {l : List (ℕ × Shift)} {k : ℕ} {s : Shift}
    (h : rowFind k l = some s) (l' : List (ℕ × Shift)) :
    rowFind k (l ++ l') = some s := by
  induction l with
  | nil => simp [rowFind] at h
  | cons p rest ih =>
    rw [List.cons_append]
    unfold rowFind at h ⊢
    split_ifs at h ⊢ with hp
    · exact h
    · exact ih h

theorem rowFind_rowUpdate_self {l : List (ℕ × Shift)} {k : ℕ} {s : Shift}
    (h : rowFind k l = some s) (s' : Shift) :
    rowFind k (rowUpdate k s' l) = some s' := by
  induction l with
  | nil => simp [rowFind] at h
  | cons p rest ih =>
    unfold rowFind at h
    unfold rowUpdate rowFind
    split_ifs at h with hp
    · simp [hp]
    · simpa [rowUpdate, hp] using ih h

theorem rowFind_rowUpdate_other {l : List (ℕ × Shift)} {k j : ℕ} (hkj : j ≠ k)
    (s' : Shift) : rowFind k (rowUpdate j s' l) = rowFind k l := by
  induction l with
  | nil => rfl
  | cons p rest ih =>
    simp only [rowUpdate, List.map_cons, rowFind] at ih ⊢
    by_cases hp : p.1 = j
    · have h1 : ¬ p.1 = k := fun hc => hkj (by rw [hp] at hc; exact hc)
      simp [if_pos hp, hkj, h1, ih]
    · by_cases hk : p.1 = k
      · simp [if_neg hp, hk, Ne.symm hkj]
      · simp [if_neg hp, hk, ih]

/-- Inversion of a successful `startShift`. -/
theorem startShift_ok {db : DB} {d : StartData} {u : String} {now : ℕ}
    {db' : DB} {k : ℕ} {s : Shift}
    (h : startShift db d u now = .ok (db', k, s)) :
    findActiveShift d.dispenserId db.shifts = none ∧
    (∃ disp, dispFind d.dispenserId db.dispensers = some disp) ∧
    k = nextShiftId db ∧
    s = { dispenser_id := d.dispenserId, operator_id := u, shift_type := d.shiftType,
          start_time := now, opening_reading := d.openingReading, notes := d.notes,
          status := .ACTIVE } ∧
    db' = { db with shifts := db.shifts ++ [(nextShiftId db, s)] } := by
  unfold startShift at h
  split at h
  · exact absurd h (by simp)
  · rename_i hfa
    split at h
    · exact absurd h (by simp)
    · rename_i disp hdf
      simp only [Except.ok.injEq, Prod.mk.injEq] at h
      obtain ⟨h1, h2, h3⟩ := h
      exact ⟨hfa, ⟨disp, hdf⟩, h2.symm, h3.symm, by rw [← h1, ← h3]⟩

/-- Inversion of a successful `endShift`. -/
theorem endShift_ok {db : DB} {shiftId : ℕ} {e : EndData} {now : ℕ}
    {db' : DB} {s' : Shift}
    (h : endShift db shiftId e now = .ok (db', s')) :
    ∃ s disp, rowFind shiftId db.shifts = some s ∧ s.status = .ACTIVE ∧
      s.opening_reading ≤ e.closingReading ∧
      dispFind s.dispenser_id db.dispensers = some disp ∧
      s' = closeFields s disp e now ∧
      db' = { db with shifts := rowUpdate shiftId s' db.shifts } := by
  unfold endShift at h
  split at h
  · exact absurd h (by simp)
  · rename_i s hrf
    split at h
    · exact absurd h (by simp)
    · rename_i hst
      split at h
      · exact absurd h (by simp)
      · rename_i hcl
        split at h
        · exact absurd h (by simp)
        · rename_i disp hdf
          simp only [Except.ok.injEq, Prod.mk.injEq] at h
          refine ⟨s, disp, hrf, by simpa using hst, not_lt.mp hcl, hdf,
            h.2.symm, ?_⟩
          rw [← h.1, h.2]

/-- Inversion of a successful `resolveDiscrepancy`. -/
theorem resolveDiscrepancy_ok {db : DB} {shiftId : ℕ} {r u : String} {now : ℕ}
    {db' : DB} {s' : Shift}
    (h : resolveDiscrepancy db shiftId r u now = .ok (db', s')) :
    ∃ s, rowFind shiftId db.shifts = some s ∧ s.status = .FLAGGED ∧
      s' = resolveFields s r u now ∧
      db' = { db with shifts := rowUpdate shiftId s' db.shifts } := by
  unfold resolveDiscrepancy at h
  split at h
  · exact absurd h (by simp)
  · rename_i s hrf
    split at h
    · exact absurd h (by simp)
    · rename_i hst
      simp only [Except.ok.injEq, Prod.mk.injEq] at h
      refine ⟨s, hrf, by simpa using hst, h.2.symm, ?_⟩
      rw [← h.1, h.2]

theorem countActiveFor_pos_of_mem {l : List (ℕ × Shift)} {k : ℕ} {s : Shift}
    {d : ℕ} (hmem : (k, s) ∈ l) (hd : s.dispenser_id = d)
    (hA : s.status = .ACTIVE) : 1 ≤ countActiveFor d l := by
  unfold countActiveFor
  have hin : (k, s) ∈ l.filter
      (fun p => decide (p.2.dispenser_id = d ∧ p.2.status = ShiftStatus.ACTIVE)) :=
    List.mem_filter.mpr ⟨hmem, by simp [hd, hA]⟩
  exact List.length_pos.mpr (List.ne_nil_of_mem hin)

theorem findActiveShift_none_count_ne_one {l : List (ℕ × Shift)} {d : ℕ}
    (h : findActiveShift d l = none) : countActiveFor d l ≠ 1 := by
  unfold findActiveShift at h
  unfold countActiveFor
  intro hc
  obtain ⟨p, hp⟩ := List.length_eq_one.mp hc
  rw [hp] at h
  simp at h

theorem findActiveShift_some_of_count_one {l : List (ℕ × Shift)} {d : ℕ}
    (h : countActiveFor d l = 1) : ∃ p, findActiveShift d l = some p := by
  unfold countActiveFor at h
  obtain ⟨p, hp⟩ := List.length_eq_one.mp h
  refine ⟨p, ?_⟩
  unfold findActiveShift
  rw [hp]

theorem countActiveFor_append (d : ℕ) (l1 l2 : List (ℕ × Shift)) :
    countActiveFor d (l1 ++ l2) = countActiveFor d l1 + countActiveFor d l2 := by
  simp [countActiveFor, List.filter_append]


theorem countActiveFor_rowUpdate_le {s' : Shift} (hs' : s'.status ≠ .ACTIVE)
    (d k : ℕ) (l : List (ℕ × Shift)) :
    countActiveFor d (rowUpdate k s' l) ≤ countActiveFor d l := by
  induction l with
  | nil => exact le_refl _
  | cons q rest ih =>
    simp only [rowUpdate, List.map_cons, countActiveFor, List.filter_cons] at ih ⊢
    by_cases hk : q.1 = k
    · rw [if_pos hk]
      have : ¬ ((k, s').2.dispenser_id = d ∧ (k, s').2.status = ShiftStatus.ACTIVE) :=
        fun hc => hs' hc.2
      simp only [decide_eq_true_eq]
      rw [if_neg this]
      split_ifs with hq
      · exact le_trans ih (Nat.le_succ _)
      · exact ih
    · rw [if_neg hk]
      simp only [decide_eq_true_eq]
      split_ifs with hq
      · simpa using ih
      · exact ih

theorem countActiveFor_le_length (d : ℕ) (l : List (ℕ × Shift)) :
    countActiveFor d l ≤ l.length :=
  List.length_filter_le _ _

theorem countActiveFor_singleton_ne {dd : ℕ} {q : ℕ × Shift}
    (hq : q.2.dispenser_id ≠ dd) : countActiveFor dd [q] = 0 := by
  unfold countActiveFor
  have hdec : decide (q.2.dispenser_id = dd ∧ q.2.status = ShiftStatus.ACTIVE) = false := by
    simp [hq]
  simp [List.filter, hdec]

theorem mem_rowUpdate {q : ℕ × Shift} {k : ℕ} {s' : Shift}
    {l : List (ℕ × Shift)} (h : q ∈ rowUpdate k s' l) : q ∈ l ∨ q = (k, s') := by
  rcases List.mem_map.mp h with ⟨p, hp, hpq⟩
  by_cases hk : p.1 = k
  · right; rw [← hpq, if_pos hk]
  · left; rw [← hpq, if_neg hk]; exact hp

theorem closeFields_status_ne_active (s : Shift) (disp : Dispenser) (e : EndData)
    (now : ℕ) : (closeFields s disp e now).status ≠ .ACTIVE := by
  unfold closeFields
  dsimp only
  split_ifs <;> simp

theorem resolveFields_status (s : Shift) (r u : String) (now : ℕ) :
    (resolveFields s r u now).status = .COMPLETED := rfl

/-- Route success implies service success (start). -/
theorem startShiftRoute_ok {db : DB} {d : StartData} {u : String} {now : ℕ} {x}
    (h : startShiftRoute db d u now = .ok x) : startShift db d u now = .ok x := by
  unfold startShiftRoute at h
  split_ifs at h
  exact h

/-- Route success implies service success (end). -/
theorem endShiftRoute_ok {db : DB} {shiftId : ℕ} {e : EndData} {now : ℕ} {x}
    (h : endShiftRoute db shiftId e now = .ok x) : endShift db shiftId e now = .ok x := by
  unfold endShiftRoute at h
  split_ifs at h
  exact h

/-- Route success implies service success with a validated reason (resolve). -/
theorem resolveRoute_ok {db : DB} {shiftId : ℕ} {reason : Option String}
    {role : Role} {u : String} {now : ℕ} {x}
    (h : resolveRoute db shiftId reason role u now = .ok x) :
    ∃ r, reason = some r ∧ r.length ≠ 0 ∧ r.length ≤ 500 ∧
      (role = .OWNER ∨ role = .MANAGER) ∧
      resolveDiscrepancy db shiftId r u now = .ok x := by
  unfold resolveRoute at h
  split_ifs at h with h1
  cases hr : reason with
  | none => rw [hr] at h; exact absurd h (by simp)
  | some r =>
    rw [hr] at h
    simp only at h
    split_ifs at h with h2
    push_neg at h1 h2
    refine ⟨r, rfl, h2.1, h2.2, ?_, h⟩
    by_cases h3 : role = Role.OWNER
    · exact Or.inl h3
    · exact Or.inr (h1 h3)

theorem rowFind_mem {l : List (ℕ × Shift)} {k : ℕ} {s : Shift}
    (h : rowFind k l = some s) : (k, s) ∈ l := by
  induction l with
  | nil => simp [rowFind] at h
  | cons p rest ih =>
    unfold rowFind at h
    split_ifs at h with hp
    · simp only [Option.some.injEq] at h
      have : (k, s) = p := by rw [← hp, ← h]
      rw [this]
      exact List.mem_cons_self _ _
    · exact List.mem_cons_of_mem _ (ih h)

/-- A route call either fails validation or behaves as the service (start). -/
theorem startShiftRoute_cases (db : DB) (d : StartData) (u : String) (now : ℕ) :
    startShiftRoute db d u now = .error .ValidationFailed ∨
    startShiftRoute db d u now = startShift db d u now := by
  unfold startShiftRoute
  split_ifs <;> simp

/-- A route call either fails validation or behaves as the service (end). -/
theorem endShiftRoute_cases (db : DB) (shiftId : ℕ) (e : EndData) (now : ℕ) :
    endShiftRoute db shiftId e now = .error .ValidationFailed ∨
    endShiftRoute db shiftId e now = endShift db shiftId e now := by
  unfold endShiftRoute
  split_ifs <;> simp

/-- A resolve route call fails its own checks or behaves as the service. -/
theorem resolveRoute_cases (db : DB) (shiftId : ℕ) (reason : Option String)
    (role : Role) (u : String) (now : ℕ) :
    resolveRoute db shiftId reason role u now = .error .Forbidden ∨
    resolveRoute db shiftId reason role u now = .error .MissingReason ∨
    ∃ r, reason = some r ∧
      resolveRoute db shiftId reason role u now = resolveDiscrepancy db shiftId r u now := by
  unfold resolveRoute
  split_ifs with h1
  · exact Or.inl rfl
  · cases reason with
    | none => exact Or.inr (Or.inl rfl)
    | some r =>
      simp only
      split_ifs with h2
      · exact Or.inr (Or.inl rfl)
      · exact Or.inr (Or.inr ⟨r, rfl, rfl⟩)

theorem step_start_error {db : DB} {d : StartData} {u : String} {now : ℕ}
    {err : SvcError} (h : startShiftRoute db d u now = .error err) :
    step db (.start d u now) = db := by
  simp [step, h]

theorem step_start_ok {db db' : DB} {d : StartData} {u : String} {now : ℕ}
    {k : ℕ} {s : Shift} (h : startShiftRoute db d u now = .ok (db', k, s)) :
    step db (.start d u now) = db' := by
  simp [step, h]

theorem step_close_error {db : DB} {shiftId : ℕ} {e : EndData} {now : ℕ}
    {err : SvcError} (h : endShiftRoute db shiftId e now = .error err) :
    step db (.close shiftId e now) = db := by
  simp [step, h]

theorem step_close_ok {db db' : DB} {shiftId : ℕ} {e : EndData} {now : ℕ}
    {s : Shift} (h : endShiftRoute db shiftId e now = .ok (db', s)) :
    step db (.close shiftId e now) = db' := by
  simp [step, h]

theorem step_resolve_error {db : DB} {shiftId : ℕ} {reason : Option String}
    {role : Role} {u : String} {now : ℕ} {err : SvcError}
    (h : resolveRoute db shiftId reason role u now = .error err) :
    step db (.resolve shiftId reason role u now) = db := by
  simp [step, h]

theorem step_resolve_ok {db db' : DB} {shiftId : ℕ} {reason : Option String}
    {role : Role} {u : String} {now : ℕ} {s : Shift}
    (h : resolveRoute db shiftId reason role u now = .ok (db', s)) :
    step db (.resolve shiftId reason role u now) = db' := by
  simp [step, h]

theorem step_setRates_shifts (db : DB) (pumpId : ℕ) (rates : List (String × ℚ)) :
    (step db (.setRates pumpId rates)).shifts = db.shifts := rfl

/-- A failing start call leaves the store untouched. -/
theorem step_start_of_svc_error {db : DB} {d : StartData} {u : String}
    {now : ℕ} {err : SvcError} (h : startShift db d u now = .error err) :
    step db (.start d u now) = db := by
  rcases startShiftRoute_cases db d u now with hr | hr
  · exact step_start_error hr
  · exact step_start_error (hr.trans h)

/-- A failing close call leaves the store untouched. -/
theorem step_close_of_svc_error {db : DB} {shiftId : ℕ} {e : EndData}
    {now : ℕ} {err : SvcError} (h : endShift db shiftId e now = .error err) :
    step db (.close shiftId e now) = db := by
  rcases endShiftRoute_cases db shiftId e now with hr | hr
  · exact step_close_error hr
  · exact step_close_error (hr.trans h)

/-- One operation preserves the one-ACTIVE-shift-per-dispenser bound. -/
theorem atMostOneActive_step (db : DB) (op : Op) (h : atMostOneActive db) :
    atMostOneActive (step db op) := by
  cases op with
  | start d u now =>
    rcases startShiftRoute_cases db d u now with hr | hr
    · rw [step_start_error hr]; exact h
    · cases hs : startShift db d u now with
      | error err => rw [step_start_error (hr.trans hs)]; exact h
      | ok x =>
        obtain ⟨db', k, s⟩ := x
        rw [step_start_ok (hr.trans hs)]
        obtain ⟨hfa, _, _, hs_eq, hdb'⟩ := startShift_ok hs
        intro dd
        rw [hdb']
        show countActiveFor dd (db.shifts ++ [(nextShiftId db, s)]) ≤ 1
        rw [countActiveFor_append]
        by_cases hdd : dd = d.dispenserId
        · subst hdd
          have hne1 := findActiveShift_none_count_ne_one hfa
          have hle1 := h d.dispenserId
          have hz : countActiveFor d.dispenserId db.shifts = 0 := by omega
          rw [hz, Nat.zero_add]
          exact le_trans (countActiveFor_le_length _ _) (by simp)
        · have hz : countActiveFor dd [(nextShiftId db, s)] = 0 :=
            countActiveFor_singleton_ne (by rw [hs_eq]; exact fun hc => hdd hc.symm)
          rw [hz]
          simpa using h dd
  | close shiftId e now =>
    rcases endShiftRoute_cases db shiftId e now with hr | hr
    · rw [step_close_error hr]; exact h
    · cases hs : endShift db shiftId e now with
      | error err => rw [step_close_error (hr.trans hs)]; exact h
      | ok x =>
        obtain ⟨db', s'⟩ := x
        rw [step_close_ok (hr.trans hs)]
        obtain ⟨s, disp, _, _, _, _, hs'_eq, hdb'⟩ := endShift_ok hs
        intro dd
        rw [hdb']
        show countActiveFor dd (rowUpdate shiftId s' db.shifts) ≤ 1
        exact le_trans
          (countActiveFor_rowUpdate_le
            (hs'_eq ▸ closeFields_status_ne_active s disp e now) dd shiftId db.shifts)
          (h dd)
  | resolve shiftId reason role u now =>
    rcases resolveRoute_cases db shiftId reason role u now with hr | hr | ⟨r, _, hr⟩
    · rw [step_resolve_error hr]; exact h
    · rw [step_resolve_error hr]; exact h
    · cases hs : resolveDiscrepancy db shiftId r u now with
      | error err => rw [step_resolve_error (hr.trans hs)]; exact h
      | ok x =>
        obtain ⟨db', s'⟩ := x
        rw [step_resolve_ok (hr.trans hs)]
        obtain ⟨s, _, _, hs'_eq, hdb'⟩ := resolveDiscrepancy_ok hs
        intro dd
        rw [hdb']
        show countActiveFor dd (rowUpdate shiftId s' db.shifts) ≤ 1
        refine le_trans (countActiveFor_rowUpdate_le ?_ dd shiftId db.shifts) (h dd)
        rw [hs'_eq, resolveFields_status]
        simp
  | setRates pumpId rates =>
    intro dd
    have : (step db (.setRates pumpId rates)).shifts = db.shifts := rfl
    rw [this]
    exact h dd

/-- Any operation sequence preserves the one-ACTIVE-shift bound. -/
theorem atMostOneActive_run (db : DB) (ops : List Op) (h : atMostOneActive db) :
    atMostOneActive (run db ops) := by
  induction ops generalizing db with
  | nil => exact h
  | cons op rest ih => exact ih (step db op) (atMostOneActive_step db op h)

/-- One operation preserves closing ≥ opening on every stored row. -/
theorem readingsOk_step (db : DB) (op : Op) (h : readingsOk db) :
    readingsOk (step db op) := by
  cases op with
  | start d u now =>
    rcases startShiftRoute_cases db d u now with hr | hr
    · rw [step_start_error hr]; exact h
    · cases hs : startShift db d u now with
      | error err => rw [step_start_error (hr.trans hs)]; exact h
      | ok x =>
        obtain ⟨db', k, s⟩ := x
        rw [step_start_ok (hr.trans hs)]
        obtain ⟨_, _, _, hs_eq, hdb'⟩ := startShift_ok hs
        intro p hp c hc
        rw [hdb'] at hp
        rcases List.mem_append.mp hp with hp | hp
        · exact h p hp c hc
        · simp only [List.mem_singleton] at hp
          rw [hp, hs_eq] at hc
          simp at hc
  | close shiftId e now =>
    rcases endShiftRoute_cases db shiftId e now with hr | hr
    · rw [step_close_error hr]; exact h
    · cases hs : endShift db shiftId e now with
      | error err => rw [step_close_error (hr.trans hs)]; exact h
      | ok x =>
        obtain ⟨db', s'⟩ := x
        rw [step_close_ok (hr.trans hs)]
        obtain ⟨s, disp, _, _, hle, _, hs'_eq, hdb'⟩ := endShift_ok hs
        intro p hp c hc
        rw [hdb'] at hp
        rcases mem_rowUpdate hp with hmem | hnew
        · exact h p hmem c hc
        · rw [hnew] at hc ⊢
          rw [hs'_eq] at hc ⊢
          simp only [closeFields] at hc ⊢
          simp only [Option.some.injEq] at hc
          exact hc ▸ hle
  | resolve shiftId reason role u now =>
    rcases resolveRoute_cases db shiftId reason role u now with hr | hr | ⟨r, _, hr⟩
    · rw [step_resolve_error hr]; exact h
    · rw [step_resolve_error hr]; exact h
    · cases hs : resolveDiscrepancy db shiftId r u now with
      | error err => rw [step_resolve_error (hr.trans hs)]; exact h
      | ok x =>
        obtain ⟨db', s'⟩ := x
        rw [step_resolve_ok (hr.trans hs)]
        obtain ⟨s, hrf, _, hs'_eq, hdb'⟩ := resolveDiscrepancy_ok hs
        intro p hp c hc
        rw [hdb'] at hp
        rcases mem_rowUpdate hp with hmem | hnew
        · exact h p hmem c hc
        · rw [hnew] at hc ⊢
          rw [hs'_eq] at hc ⊢
          have hco : s.closing_reading = some c := hc
          show s.opening_reading ≤ c
          exact h (shiftId, s) (rowFind_mem hrf) c hco
  | setRates pumpId rates =>
    intro q hq c hc
    have : (step db (.setRates pumpId rates)).shifts = db.shifts := rfl
    rw [this] at hq
    exact h q hq c hc

/-- Any operation sequence preserves closing ≥ opening on every stored row. -/
theorem readingsOk_run (db : DB) (ops : List Op) (h : readingsOk db) :
    readingsOk (run db ops) := by
  induction ops generalizing db with
  | nil => exact h
  | cons op rest ih => exact ih (step db op) (readingsOk_step db op h)

/-- A non-resolve operation, or a resolve aimed at another row, leaves a
non-ACTIVE row completely untouched. -/
theorem frame_step {db : DB} {k : ℕ} {s : Shift}
    (hs : rowFind k db.shifts = some s) (hNA : s.status ≠ .ACTIVE) (op : Op)
    (hop : ∀ reason role u now, op ≠ .resolve k reason role u now) :
    rowFind k (step db op).shifts = some s := by
  cases op with
  | start d u now =>
    rcases startShiftRoute_cases db d u now with hr | hr
    · rw [step_start_error hr]; exact hs
    · cases hst : startShift db d u now with
      | error err => rw [step_start_error (hr.trans hst)]; exact hs
      | ok x =>
        obtain ⟨db', k', s'⟩ := x
        rw [step_start_ok (hr.trans hst)]
        obtain ⟨_, _, _, _, hdb'⟩ := startShift_ok hst
        rw [hdb']
        exact rowFind_append_some hs _
  | close shiftId e now =>
    rcases endShiftRoute_cases db shiftId e now with hr | hr
    · rw [step_close_error hr]; exact hs
    · cases hst : endShift db shiftId e now with
      | error err => rw [step_close_error (hr.trans hst)]; exact hs
      | ok x =>
        obtain ⟨db', s'⟩ := x
        rw [step_close_ok (hr.trans hst)]
        obtain ⟨s0, disp, hs0, hA0, _, _, _, hdb'⟩ := endShift_ok hst
        rw [hdb']
        by_cases hk : shiftId = k
        · subst hk
          rw [hs0] at hs
          simp only [Option.some.injEq] at hs
          exact absurd (hs ▸ hA0) hNA
        · show rowFind k (rowUpdate shiftId s' db.shifts) = some s
          rw [rowFind_rowUpdate_other hk]
          exact hs
  | resolve shiftId reason role u now =>
    by_cases hk : shiftId = k
    · subst hk
      exact absurd rfl (hop reason role u now)
    · rcases resolveRoute_cases db shiftId reason role u now with hr | hr | ⟨r, _, hr⟩
      · rw [step_resolve_error hr]; exact hs
      · rw [step_resolve_error hr]; exact hs
      · cases hst : resolveDiscrepancy db shiftId r u now with
        | error err => rw [step_resolve_error (hr.trans hst)]; exact hs
        | ok x =>
          obtain ⟨db', s'⟩ := x
          rw [step_resolve_ok (hr.trans hst)]
          obtain ⟨s0, _, _, _, hdb'⟩ := resolveDiscrepancy_ok hst
          rw [hdb']
          show rowFind k (rowUpdate shiftId s' db.shifts) = some s
          rw [rowFind_rowUpdate_other hk]
          exact hs
  | setRates pumpId rates =>
    have hsp : (step db (.setRates pumpId rates)).shifts = db.shifts := rfl
    rw [hsp]
    exact hs

/-! ## Concrete stores used by witnesses and counterexamples -/

/-- An active PETROL dispenser of pump 1 at the given unit price. -/
def dispP (price : ℚ) : Dispenser :=
  { fuel_type := "PETROL", petrol_pump_id := 1, current_price := price, is_active := true }

/-- An ACTIVE shift on dispenser 1, opened at reading 1000. -/
def shA : Shift :=
  { dispenser_id := 1
    operator_id := "op1"
    shift_type := "MORNING"
    start_time := 0
    opening_reading := 1000
    status := .ACTIVE }

/-- One dispenser priced 100 with the ACTIVE shift `shA` stored under id 1. -/
def dbA : DB := { dispensers := [(1, dispP 100)], shifts := [(1, shA)] }

/-- Close request: reading 1150, cash 14500, no digital payments. -/
def eA : EndData := { closingReading := 1150, actualCash := 14500 }

/-- The row `endShift dbA 1 eA 5` writes: 150 units sold, 15000 expected,
500 short, hence FLAGGED. -/
def shAClosed : Shift :=
  { dispenser_id := 1
    operator_id := "op1"
    shift_type := "MORNING"
    start_time := 0
    end_time := some 5
    opening_reading := 1000
    closing_reading := some 1150
    fuel_sold := some 150
    expected_cash := some 15000
    actual_cash := some 14500
    digital_payments := some []
    cash_used := some 0
    cash_usage_reason := none
    notes := none
    discrepancy := some { amount := -500, reason := "Cash shortage", resolved := false }
    status := .FLAGGED }

/-- `dbA` after the close above. -/
def dbAClosed : DB :=
  { dispensers := [(1, dispP 100)], shifts := [(1, shAClosed)] }

theorem dbA_rowFind : rowFind 1 dbA.shifts = some shA := by
  norm_num [rowFind, dbA]

theorem dbA_dispFind :
    dispFind shA.dispenser_id dbA.dispensers = some (dispP 100) := by
  norm_num [dispFind, dbA, shA]

/-- The concrete close of `dbA` evaluated. -/
theorem eval_endShift_dbA : endShift dbA 1 eA 5 = .ok (dbAClosed, shAClosed) := by
  norm_num [endShift, rowFind, closeFields, discrepancyAmountOf, totalDigital, dpGet,
    ratAbs, categoryText, dispFind, dispP, rowUpdate, dbA, shA, eA, dbAClosed, shAClosed]

/-! ## C1 -/

/-- Empty store with dispenser 1 priced 100 before any shift. -/
def c1Db : DB := { dispensers := [(1, dispP 100)], shifts := [] }

/-- Open a shift at reading 1000 while the price is 100, then raise pump 1's
PETROL rate to 110 while the shift is ACTIVE (the setDailyRates path, which
rewrites `current_price` on the matching active dispensers). -/
def c1Ops : List Op :=
  [.start { dispenserId := 1, shiftType := "MORNING", openingReading := 1000 } "op1" 0,
   .setRates 1 [("PETROL", 110)]]

/-- C1 counterexample: the dispenser's price at open time is 100, the price
is raised to 110 during the shift by setting the day's PETROL rate for its
pump, and closing at reading 1010 stores fuel_sold = 10 and
expected_cash = 1100 = 10 × 110 — the close-time price — whereas the claim
demands 10 × 100 = 1000, the unit price at open. No unit price is captured
onto the shift at open time. -/
theorem C1_counterexample :
    dispFind 1 c1Db.dispensers = some (dispP 100) ∧
    (endShift (run c1Db c1Ops) 1 { closingReading := 1010 } 5).toOption.map
      (fun p => (p.2.fuel_sold, p.2.expected_cash)) = some (some 10, some 1100) ∧
    (1100 : ℚ) ≠ 10 * 100 := by
  refine ⟨rfl, ?_, by norm_num⟩
  norm_num [run, step, c1Db, c1Ops, startShiftRoute, startShift, findActiveShift,
    dispFind, nextShiftId, setDailyRates, dispP, endShift, rowFind, closeFields,
    discrepancyAmountOf, totalDigital, dpGet, ratAbs, categoryText, rowUpdate,
    Except.toOption]

/-- C1 (amended): for every shift closed via closeShift, the stored fuel_sold
equals closing − opening, and the stored expected_cash equals fuel_sold
multiplied by the dispenser's current unit price as read at close time; no
unit price is captured onto the shift at open time, so a price change between
open and close changes expected_cash. -/
theorem C1_expected_cash_uses_close_time_price
    {db db' : DB} {shiftId : ℕ} {e : EndData} {now : ℕ} {s s' : Shift}
    {disp : Dispenser}
    (hs : rowFind shiftId db.shifts = some s)
    (hd : dispFind s.dispenser_id db.dispensers = some disp)
    (h : endShift db shiftId e now = .ok (db', s')) :
    s'.fuel_sold = some (e.closingReading - s.opening_reading) ∧
    s'.expected_cash =
      some ((e.closingReading - s.opening_reading) * disp.current_price) := by
  obtain ⟨s0, disp0, hs0, _, _, hd0, hs'_eq, _⟩ := endShift_ok h
  rw [hs0] at hs
  simp only [Option.some.injEq] at hs
  subst hs
  rw [hd0] at hd
  simp only [Option.some.injEq] at hd
  subst hd
  rw [hs'_eq]
  exact ⟨rfl, rfl⟩

/-- C1 witness: the amended theorem evaluated on the concrete close of `dbA`. -/
theorem C1_witness :
    (rowFind 1 dbA.shifts = some shA ∧
     dispFind shA.dispenser_id dbA.dispensers = some (dispP 100) ∧
     endShift dbA 1 eA 5 = .ok (dbAClosed, shAClosed)) ∧
    (shAClosed.fuel_sold = some (eA.closingReading - shA.opening_reading) ∧
     shAClosed.expected_cash =
       some ((eA.closingReading - shA.opening_reading) * (100 : ℚ))) :=
  ⟨⟨dbA_rowFind, dbA_dispFind, eval_endShift_dbA⟩,
   C1_expected_cash_uses_close_time_price dbA_rowFind dbA_dispFind eval_endShift_dbA⟩

/-! ## C2 -/

/-- C2: a closed shift is FLAGGED exactly when the absolute discrepancy
exceeds the threshold 1; when flagged, the stored record carries the signed
amount, the category text ('Excess cash' for positive, 'Cash shortage' for
negative) and resolved = false; otherwise the shift is COMPLETED and no
discrepancy record is stored. -/
theorem C2_discrepancy_threshold
    {db db' : DB} {shiftId : ℕ} {e : EndData} {now : ℕ} {s s' : Shift}
    {disp : Dispenser}
    (hs : rowFind shiftId db.shifts = some s)
    (hd : dispFind s.dispenser_id db.dispensers = some disp)
    (h : endShift db shiftId e now = .ok (db', s')) :
    (s'.status = .FLAGGED ↔ 1 < |discrepancyAmountOf s disp e|) ∧
    (1 < |discrepancyAmountOf s disp e| →
      s'.discrepancy = some { amount := discrepancyAmountOf s disp e,
                              reason := categoryText (discrepancyAmountOf s disp e),
                              resolved := false }) ∧
    (¬ 1 < |discrepancyAmountOf s disp e| →
      s'.status = .COMPLETED ∧ s'.discrepancy = none) ∧
    (0 < discrepancyAmountOf s disp e →
      categoryText (discrepancyAmountOf s disp e) = "Excess cash") ∧
    (discrepancyAmountOf s disp e < 0 →
      categoryText (discrepancyAmountOf s disp e) = "Cash shortage") := by
  obtain ⟨s0, disp0, hs0, _, _, hd0, hs'_eq, _⟩ := endShift_ok h
  rw [hs0] at hs
  simp only [Option.some.injEq] at hs
  subst hs
  rw [hd0] at hd
  simp only [Option.some.injEq] at hd
  subst hd
  rw [hs'_eq]
  unfold closeFields
  dsimp only
  rw [ratAbs_eq_abs]
  refine ⟨?_, ?_, ?_, ?_, ?_⟩
  · by_cases hf : 1 < |discrepancyAmountOf s0 disp0 e|
    · simp [hf]
    · simp [hf]
  · intro hf
    simp [hf]
  · intro hf
    simp [hf]
  · intro hpos
    rw [categoryText, if_pos hpos]
  · intro hneg
    rw [categoryText, if_neg (not_lt.mpr (le_of_lt hneg))]

/-- C2 witness: the concrete close of `dbA` is 500 short, beyond the
threshold, so it is FLAGGED with a 'Cash shortage' record. -/
theorem C2_witness :
    (rowFind 1 dbA.shifts = some shA ∧
     dispFind shA.dispenser_id dbA.dispensers = some (dispP 100) ∧
     endShift dbA 1 eA 5 = .ok (dbAClosed, shAClosed)) ∧
    ((shAClosed.status = .FLAGGED ↔
        1 < |discrepancyAmountOf shA (dispP 100) eA|) ∧
     (1 < |discrepancyAmountOf shA (dispP 100) eA| →
       shAClosed.discrepancy =
         some { amount := discrepancyAmountOf shA (dispP 100) eA,
                reason := categoryText (discrepancyAmountOf shA (dispP 100) eA),
                resolved := false }) ∧
     (¬ 1 < |discrepancyAmountOf shA (dispP 100) eA| →
       shAClosed.status = .COMPLETED ∧ shAClosed.discrepancy = none) ∧
     (0 < discrepancyAmountOf shA (dispP 100) eA →
       categoryText (discrepancyAmountOf shA (dispP 100) eA) = "Excess cash") ∧
     (discrepancyAmountOf shA (dispP 100) eA < 0 →
       categoryText (discrepancyAmountOf shA (dispP 100) eA) = "Cash shortage")) :=
  ⟨⟨dbA_rowFind, dbA_dispFind, eval_endShift_dbA⟩,
   C2_discrepancy_threshold dbA_rowFind dbA_dispFind eval_endShift_dbA⟩

/-! ## C3 -/

/-- Close request carrying a digital sub-total under the name "wallet",
which is not one of upi/card/other. -/
def c3E : EndData :=
  { closingReading := 1000, actualCash := 10, digitalPayments := [("wallet", 50)] }

theorem c3TotalDigital : totalDigital [(("wallet" : String), (50 : ℚ))] = 0 := by
  simp [totalDigital, dpGet, List.lookup]

/-- C3 counterexample: closing `dbA` at its opening reading with 10 in cash
and a 50 "wallet" digital sub-total stores a discrepancy amount of 10: the
wallet sub-total is ignored, while the claim's formula — which sums all named
sub-totals — yields 60. -/
theorem C3_counterexample :
    (endShift dbA 1 c3E 5).toOption.map
      (fun p => p.2.discrepancy.map Discrepancy.amount) = some (some 10) ∧
    c3E.actualCash + totalDigitalSpec c3E.digitalPayments -
      ((c3E.closingReading - shA.opening_reading) * 100 - c3E.cashUsed) = 60 ∧
    (10 : ℚ) ≠ 60 := by
  refine ⟨?_, ?_, by norm_num⟩
  · norm_num [endShift, rowFind, closeFields, discrepancyAmountOf, c3TotalDigital,
      ratAbs, categoryText, dispFind, dispP, rowUpdate, dbA, shA, c3E, Except.toOption]
  · norm_num [totalDigitalSpec, c3E, shA]

/-- C3 (amended): for every closeShift that flags the shift, the stored
discrepancy amount equals (actualCash + total_digital) − (expected_cash −
cashUsed) where total_digital sums only the upi, card and other sub-totals of
digitalPayments; sub-totals under any other name are ignored. -/
theorem C3_digital_sum_upi_card_other
    {db db' : DB} {shiftId : ℕ} {e : EndData} {now : ℕ} {s s' : Shift}
    {disp : Dispenser}
    (hs : rowFind shiftId db.shifts = some s)
    (hd : dispFind s.dispenser_id db.dispensers = some disp)
    (h : endShift db shiftId e now = .ok (db', s'))
    (hFlag : s'.status = .FLAGGED) :
    s'.discrepancy.map Discrepancy.amount =
      some ((e.actualCash +
              (dpGet e.digitalPayments "upi" + dpGet e.digitalPayments "card" +
               dpGet e.digitalPayments "other")) -
            ((e.closingReading - s.opening_reading) * disp.current_price -
             e.cashUsed)) := by
  obtain ⟨s0, disp0, hs0, _, _, hd0, hs'_eq, _⟩ := endShift_ok h
  rw [hs0] at hs
  simp only [Option.some.injEq] at hs
  subst hs
  rw [hd0] at hd
  simp only [Option.some.injEq] at hd
  subst hd
  rw [hs'_eq] at hFlag ⊢
  unfold closeFields at hFlag ⊢
  dsimp only at hFlag ⊢
  by_cases hf : 1 < ratAbs (discrepancyAmountOf s0 disp0 e)
  · simp only [if_pos hf, Option.map_some]
    rfl
  · rw [if_neg hf] at hFlag
    exact absurd hFlag (by simp)

/-- C3 witness: the amended theorem evaluated on the flagged concrete close
of `dbA`. -/
theorem C3_witness :
    (rowFind 1 dbA.shifts = some shA ∧
     dispFind shA.dispenser_id dbA.dispensers = some (dispP 100) ∧
     endShift dbA 1 eA 5 = .ok (dbAClosed, shAClosed) ∧
     shAClosed.status = .FLAGGED) ∧
    shAClosed.discrepancy.map Discrepancy.amount =
      some ((eA.actualCash +
              (dpGet eA.digitalPayments "upi" + dpGet eA.digitalPayments "card" +
               dpGet eA.digitalPayments "other")) -
            ((eA.closingReading - shA.opening_reading) * (100 : ℚ) -
             eA.cashUsed)) :=
  ⟨⟨dbA_rowFind, dbA_dispFind, eval_endShift_dbA, rfl⟩,
   C3_digital_sum_upi_card_other dbA_rowFind dbA_dispFind eval_endShift_dbA rfl⟩

/-! ## C4 -/

/-- C4: in a store that satisfies the maintained one-ACTIVE-per-dispenser
bound, startShift on a dispenser that already has an ACTIVE shift fails with
DuplicateActiveShift and leaves the store untouched (no shift is created);
and any sequence of operations run from a store with at most one ACTIVE shift
per dispenser keeps at most one ACTIVE shift per dispenser. (The bound
hypothesis is needed because the source ignores the duplicate check's
`.single()` error: the check throws only when exactly one ACTIVE row matches,
which under the maintained bound is every "already has an ACTIVE shift"
state.) -/
theorem C4_single_active_shift
    {db : DB} {d : StartData} {u : String} {now : ℕ} {k : ℕ} {s : Shift}
    (hmem : (k, s) ∈ db.shifts) (hdd : s.dispenser_id = d.dispenserId)
    (hA : s.status = .ACTIVE) (hinv : atMostOneActive db)
    (db0 : DB) (h0 : atMostOneActive db0) (ops : List Op) :
    startShift db d u now = .error .DuplicateActiveShift ∧
    step db (.start d u now) = db ∧
    atMostOneActive (run db0 ops) := by
  have h1 : 1 ≤ countActiveFor d.dispenserId db.shifts :=
    countActiveFor_pos_of_mem hmem hdd hA
  have h2 : countActiveFor d.dispenserId db.shifts = 1 :=
    le_antisymm (hinv d.dispenserId) h1
  obtain ⟨p, hp⟩ := findActiveShift_some_of_count_one h2
  have herr : startShift db d u now = .error .DuplicateActiveShift := by
    unfold startShift
    rw [hp]
  exact ⟨herr, step_start_of_svc_error herr, atMostOneActive_run db0 ops h0⟩

/-- Open request aimed at the dispenser that already runs `shA`. -/
def c4D : StartData := { dispenserId := 1, shiftType := "EVENING", openingReading := 1200 }

theorem dbA_mem : ((1 : ℕ), shA) ∈ dbA.shifts := by simp [dbA]

theorem dbA_atMostOne : atMostOneActive dbA :=
  fun dd => le_trans (countActiveFor_le_length dd dbA.shifts) (by simp [dbA])

/-- C4 witness: on the concrete store `dbA`, which holds the ACTIVE shift
`shA` on dispenser 1, a second open fails with DuplicateActiveShift and the
store is unchanged; and the single-ACTIVE bound is preserved along the
concrete operation sequence `c1Ops`. -/
theorem C4_witness :
    ((1, shA) ∈ dbA.shifts ∧ shA.dispenser_id = c4D.dispenserId ∧
     shA.status = .ACTIVE ∧ atMostOneActive dbA) ∧
    (startShift dbA c4D "op2" 7 = .error .DuplicateActiveShift ∧
     step dbA (.start c4D "op2" 7) = dbA ∧
     atMostOneActive (run dbA c1Ops)) :=
  ⟨⟨dbA_mem, rfl, rfl, dbA_atMostOne⟩,
   C4_single_active_shift dbA_mem rfl rfl dbA_atMostOne dbA dbA_atMostOne c1Ops⟩

/-! ## C5 -/

/-- C5: closing an ACTIVE shift with a reading strictly below its opening
reading fails with the ClosingLessThanOpening validation error, the store is
untouched and the shift row is exactly as before (still ACTIVE); and every
operation sequence run from a store whose rows all satisfy closing ≥ opening
(when a closing is present) preserves that invariant. -/
theorem C5_closing_not_below_opening
    {db : DB} {shiftId : ℕ} {e : EndData} {now : ℕ} {s : Shift}
    (hs : rowFind shiftId db.shifts = some s) (hA : s.status = .ACTIVE)
    (hlt : e.closingReading < s.opening_reading)
    (db0 : DB) (h0 : readingsOk db0) (ops : List Op) :
    endShift db shiftId e now = .error .ClosingLessThanOpening ∧
    step db (.close shiftId e now) = db ∧
    rowFind shiftId (step db (.close shiftId e now)).shifts = some s ∧
    readingsOk (run db0 ops) := by
  have herr : endShift db shiftId e now = .error .ClosingLessThanOpening := by
    simp only [endShift, hs]
    rw [if_neg (by simp [hA]), if_pos hlt]
  have hstep := step_close_of_svc_error herr
  exact ⟨herr, hstep, by rw [hstep]; exact hs, readingsOk_run db0 ops h0⟩

/-- Close request whose reading 900 is below `shA`'s opening reading 1000. -/
def c5E : EndData := { closingReading := 900, actualCash := 0 }

/-- C5 witness: closing `shA` (opened at 1000) with reading 900 fails and
leaves the row untouched; and `readingsOk` is preserved along `c1Ops`. -/
theorem C5_witness :
    (rowFind 1 dbA.shifts = some shA ∧ shA.status = .ACTIVE ∧
     c5E.closingReading < shA.opening_reading ∧ readingsOk dbA) ∧
    (endShift dbA 1 c5E 5 = .error .ClosingLessThanOpening ∧
     step dbA (.close 1 c5E 5) = dbA ∧
     rowFind 1 (step dbA (.close 1 c5E 5)).shifts = some shA ∧
     readingsOk (run dbA c1Ops)) :=
  ⟨⟨dbA_rowFind, rfl, by norm_num [c5E, shA],
    by intro p hp c hc; simp [dbA, shA] at hp; simp [hp] at hc⟩,
   C5_closing_not_below_opening dbA_rowFind rfl (by norm_num [c5E, shA]) dbA
     (by intro p hp c hc; simp [dbA, shA] at hp; simp [hp] at hc) c1Ops⟩

/-! ## C6 -/

/-- A FLAGGED shift with a 5-unit excess discrepancy, as `endShift` stores it. -/
def shF : Shift :=
  { dispenser_id := 1
    operator_id := "op1"
    shift_type := "MORNING"
    start_time := 0
    end_time := some 5
    opening_reading := 1000
    closing_reading := some 1000
    fuel_sold := some 0
    expected_cash := some 0
    actual_cash := some 5
    digital_payments := some []
    cash_used := some 0
    cash_usage_reason := none
    notes := none
    discrepancy := some { amount := 5, reason := "Excess cash", resolved := false }
    status := .FLAGGED }

/-- One dispenser priced 100 with the FLAGGED shift `shF` stored under id 1. -/
def dbF : DB := { dispensers := [(1, dispP 100)], shifts := [(1, shF)] }

/-- A 501-character resolution reason: non-empty but over the route's cap. -/
def longReason : String := String.mk (List.replicate 501 'x')

/-- C6 counterexample: resolving the FLAGGED shift of `dbF` as a MANAGER with
a non-empty 501-character reason fails (the route's isLength max 500 check),
although the claim says resolveDiscrepancy succeeds whenever the shift is
FLAGGED, the role is OWNER or MANAGER, and the reason is non-empty. A missing
shift likewise yields its own ShiftNotFound error rather than NotFlagged. -/
theorem C6_counterexample :
    rowFind 1 dbF.shifts = some shF ∧ shF.status = .FLAGGED ∧
    longReason.length = 501 ∧
    resolveRoute dbF 1 (some longReason) .MANAGER "mgr" 9 = .error .MissingReason ∧
    resolveRoute { dispensers := [], shifts := [] } 1 (some "verified") .OWNER
      "own" 9 = .error .ShiftNotFound := by
  have hlen : longReason.length = 501 := by
    simp only [longReason, String.length, List.length_replicate]
  refine ⟨by norm_num [rowFind, dbF], rfl, hlen, ?_, ?_⟩
  · unfold resolveRoute
    rw [if_neg (by simp)]
    simp only
    rw [if_pos (Or.inr (by rw [hlen]; norm_num))]
  · unfold resolveRoute
    rw [if_neg (by simp)]
    simp only
    rw [if_neg (by decide)]
    rfl

/-- C6 (amended): the full resolve path succeeds exactly when the shift
exists with status FLAGGED, the resolver's role is OWNER or MANAGER, and the
reason is non-empty and at most 500 characters; a role outside OWNER/MANAGER
fails Forbidden, an absent, empty or over-long reason fails the reason
validation (MissingReason), a missing shift fails ShiftNotFound, a shift in
another status fails NotFlagged, and every failing call leaves the store
untouched. -/
theorem C6_resolution_gating (db : DB) (shiftId : ℕ) (reason : Option String)
    (role : Role) (u : String) (now : ℕ) :
    ((∃ x, resolveRoute db shiftId reason role u now = .ok x) ↔
      ((role = .OWNER ∨ role = .MANAGER) ∧
       (∃ r, reason = some r ∧ r.length ≠ 0 ∧ r.length ≤ 500) ∧
       (∃ s, rowFind shiftId db.shifts = some s ∧ s.status = .FLAGGED))) ∧
    (¬(role = .OWNER ∨ role = .MANAGER) →
      resolveRoute db shiftId reason role u now = .error .Forbidden) ∧
    ((role = .OWNER ∨ role = .MANAGER) → reason = none →
      resolveRoute db shiftId reason role u now = .error .MissingReason) ∧
    ((role = .OWNER ∨ role = .MANAGER) →
      ∀ r, reason = some r → (r.length = 0 ∨ 500 < r.length) →
        resolveRoute db shiftId reason role u now = .error .MissingReason) ∧
    ((role = .OWNER ∨ role = .MANAGER) →
      ∀ r, reason = some r → r.length ≠ 0 → r.length ≤ 500 →
        rowFind shiftId db.shifts = none →
        resolveRoute db shiftId reason role u now = .error .ShiftNotFound) ∧
    ((role = .OWNER ∨ role = .MANAGER) →
      ∀ r, reason = some r → r.length ≠ 0 → r.length ≤ 500 →
        ∀ s, rowFind shiftId db.shifts = some s → s.status ≠ .FLAGGED →
          resolveRoute db shiftId reason role u now = .error .NotFlagged) ∧
    (∀ err, resolveRoute db shiftId reason role u now = .error err →
      step db (.resolve shiftId reason role u now) = db) := by
  have hrole : ∀ (h : role = Role.OWNER ∨ role = Role.MANAGER),
      ¬(role ≠ Role.OWNER ∧ role ≠ Role.MANAGER) := by
    intro h hc
    rcases h with h | h
    · exact hc.1 h
    · exact hc.2 h
  refine ⟨?_, ?_, ?_, ?_, ?_, ?_, ?_⟩
  · constructor
    · rintro ⟨x, hx⟩
      obtain ⟨r, hr, hne, hle, hrm, hsvc⟩ := resolveRoute_ok hx
      obtain ⟨s, hs, hF, _, _⟩ := resolveDiscrepancy_ok hsvc
      exact ⟨hrm, ⟨r, hr, hne, hle⟩, ⟨s, hs, hF⟩⟩
    · rintro ⟨hrm, ⟨r, hr, hne, hle⟩, ⟨s, hs, hF⟩⟩
      unfold resolveRoute
      rw [if_neg (hrole hrm), hr]
      simp only
      rw [if_neg (by push_neg; exact ⟨hne, hle⟩)]
      simp only [resolveDiscrepancy, hs]
      rw [if_neg (by simp [hF])]
      exact ⟨_, rfl⟩
  · intro hbad
    push_neg at hbad
    unfold resolveRoute
    rw [if_pos hbad]
  · intro hrm hnone
    unfold resolveRoute
    rw [if_neg (hrole hrm), hnone]
  · intro hrm r hr hbad
    unfold resolveRoute
    rw [if_neg (hrole hrm), hr]
    simp only
    rw [if_pos hbad]
  · intro hrm r hr hne hle hmiss
    unfold resolveRoute
    rw [if_neg (hrole hrm), hr]
    simp only
    rw [if_neg (by push_neg; exact ⟨hne, hle⟩)]
    simp only [resolveDiscrepancy, hmiss]
  · intro hrm r hr hne hle s hs hnF
    unfold resolveRoute
    rw [if_neg (hrole hrm), hr]
    simp only
    rw [if_neg (by push_neg; exact ⟨hne, hle⟩)]
    simp only [resolveDiscrepancy, hs]
    rw [if_pos (by simp [hnF])]
  · intro err herr
    exact step_resolve_error herr

/-- C6 witness: the amended theorem instantiated on the concrete FLAGGED
store `dbF` with a MANAGER and the reason used in the spec's own scenario. -/
theorem C6_witness :
    ((∃ x, resolveRoute dbF 1 (some "verified register count") .MANAGER "mgr" 9
        = .ok x) ↔
      ((Role.MANAGER = Role.OWNER ∨ Role.MANAGER = Role.MANAGER) ∧
       (∃ r, (some "verified register count" : Option String) = some r ∧
         r.length ≠ 0 ∧ r.length ≤ 500) ∧
       (∃ s, rowFind 1 dbF.shifts = some s ∧ s.status = .FLAGGED))) ∧
    (¬(Role.MANAGER = Role.OWNER ∨ Role.MANAGER = Role.MANAGER) →
      resolveRoute dbF 1 (some "verified register count") .MANAGER "mgr" 9
        = .error .Forbidden) ∧
    ((Role.MANAGER = Role.OWNER ∨ Role.MANAGER = Role.MANAGER) →
      (some "verified register count" : Option String) = none →
      resolveRoute dbF 1 (some "verified register count") .MANAGER "mgr" 9
        = .error .MissingReason) ∧
    ((Role.MANAGER = Role.OWNER ∨ Role.MANAGER = Role.MANAGER) →
      ∀ r, (some "verified register count" : Option String) = some r →
        (r.length = 0 ∨ 500 < r.length) →
        resolveRoute dbF 1 (some "verified register count") .MANAGER "mgr" 9
          = .error .MissingReason) ∧
    ((Role.MANAGER = Role.OWNER ∨ Role.MANAGER = Role.MANAGER) →
      ∀ r, (some "verified register count" : Option String) = some r →
        r.length ≠ 0 → r.length ≤ 500 → rowFind 1 dbF.shifts = none →
        resolveRoute dbF 1 (some "verified register count") .MANAGER "mgr" 9
          = .error .ShiftNotFound) ∧
    ((Role.MANAGER = Role.OWNER ∨ Role.MANAGER = Role.MANAGER) →
      ∀ r, (some "verified register count" : Option String) = some r →
        r.length ≠ 0 → r.length ≤ 500 →
        ∀ s, rowFind 1 dbF.shifts = some s → s.status ≠ .FLAGGED →
        resolveRoute dbF 1 (some "verified register count") .MANAGER "mgr" 9
          = .error .NotFlagged) ∧
    (∀ err, resolveRoute dbF 1 (some "verified register count") .MANAGER "mgr" 9
        = .error err →
      step dbF (.resolve 1 (some "verified register count") .MANAGER "mgr" 9) = dbF) :=
  C6_resolution_gating dbF 1 (some "verified register count") .MANAGER "mgr" 9

/-! ## C7 -/

/-- C7: a successful resolveDiscrepancy on a stored non-ACTIVE (FLAGGED) row
writes it back with status COMPLETED, discrepancy.resolved = true, and the
opening reading, closing reading, fuel_sold, expected_cash, actual_cash,
digital_payments and cash_used unchanged; and every operation other than a
resolve aimed at that row leaves a COMPLETED or FLAGGED row entirely
untouched. -/
theorem C7_closed_rows_immutable
    {db : DB} {k : ℕ} {s : Shift}
    (hs : rowFind k db.shifts = some s) (hNA : s.status ≠ .ACTIVE) :
    (∀ (r u : String) (now : ℕ) (db' : DB) (s₂ : Shift),
        resolveDiscrepancy db k r u now = .ok (db', s₂) →
        rowFind k db'.shifts = some s₂ ∧ s₂.status = .COMPLETED ∧
        s₂.discrepancy.map Discrepancy.resolved = some true ∧
        finFieldsEq s s₂) ∧
    (∀ op : Op, (∀ reason role u now, op ≠ .resolve k reason role u now) →
        rowFind k (step db op).shifts = some s) := by
  constructor
  · intro r u now db' s₂ h
    obtain ⟨s0, hs0, hF0, hs2, hdb'⟩ := resolveDiscrepancy_ok h
    rw [hs0] at hs
    simp only [Option.some.injEq] at hs
    subst hs
    refine ⟨?_, ?_, ?_, ?_⟩
    · rw [hdb']
      exact rowFind_rowUpdate_self hs0 s₂
    · rw [hs2]
      exact resolveFields_status _ _ _ _
    · rw [hs2]
      simp [resolveFields]
    · rw [hs2]
      simp [finFieldsEq, resolveFields]
  · intro op hop
    exact frame_step hs hNA op hop

/-- C7 witness: the theorem instantiated on the FLAGGED row of `dbF`. -/
theorem C7_witness :
    (rowFind 1 dbF.shifts = some shF ∧ shF.status ≠ .ACTIVE) ∧
    ((∀ (r u : String) (now : ℕ) (db' : DB) (s₂ : Shift),
        resolveDiscrepancy dbF 1 r u now = .ok (db', s₂) →
        rowFind 1 db'.shifts = some s₂ ∧ s₂.status = .COMPLETED ∧
        s₂.discrepancy.map Discrepancy.resolved = some true ∧
        finFieldsEq shF s₂) ∧
     (∀ op : Op, (∀ reason role u now, op ≠ .resolve 1 reason role u now) →
        rowFind 1 (step dbF op).shifts = some shF)) :=
  ⟨⟨by norm_num [rowFind, dbF], by simp [shF]⟩,
   C7_closed_rows_immutable (by norm_num [rowFind, dbF]) (by simp [shF])⟩

/-! ## C8 -/

/-- A COMPLETED shift on dispenser 1 whose recorded closing reading is 500. -/
def c8Prev : Shift :=
  { dispenser_id := 1
    operator_id := "op0"
    shift_type := "MORNING"
    start_time := 0
    end_time := some 4
    opening_reading := 400
    closing_reading := some 500
    fuel_sold := some 100
    expected_cash := some 10000
    actual_cash := some 10000
    digital_payments := some []
    cash_used := some 0
    status := .COMPLETED }

/-- Store whose dispenser 1 last closed at reading 500. -/
def c8Db : DB := { dispensers := [(1, dispP 100)], shifts := [(1, c8Prev)] }

/-- Open request with reading 100, far below the last recorded closing 500. -/
def c8D : StartData := { dispenserId := 1, shiftType := "EVENING", openingReading := 100 }

theorem c8_findActive : findActiveShift c8D.dispenserId c8Db.shifts = none := by decide

theorem c8_dispFind :
    dispFind c8D.dispenserId c8Db.dispensers = some (dispP 100) := by
  simp [dispFind, c8Db, c8D]

/-- The ACTIVE shift the open request creates. -/
def c8New : Shift :=
  { dispenser_id := 1
    operator_id := "op2"
    shift_type := "EVENING"
    start_time := 9
    opening_reading := 100
    status := .ACTIVE }

theorem c8_start_ok : startShiftRoute c8Db c8D "op2" 9 =
    .ok ({ dispensers := c8Db.dispensers, shifts := c8Db.shifts ++ [(2, c8New)] }, 2, c8New) := by
  unfold startShiftRoute
  rw [if_neg (by simp [c8D]), if_neg (by norm_num [c8D]), if_neg (by simp [c8D])]
  unfold startShift
  rw [c8_findActive]
  rw [c8_dispFind]
  norm_num [nextShiftId, c8Db, c8New, c8D]

/-- C8: the dispenser's last recorded closing reading is 500, and the
repository's own `ValidationUtils.validateStockReading` rejects an opening
reading of 100 against it as non-monotonic; yet the full openShift path
(route validation plus `ShiftService.startShift`) accepts the request and
creates an ACTIVE shift with opening_reading 100 — neither layer ever calls
the monotonic check against the dispenser's last closing. -/
theorem C8_open_ignores_monotonic_check :
    c8Prev.closing_reading = some 500 ∧
    validateStockReading 100 (some 500) = [ReadingError.NotMonotonic] ∧
    (startShiftRoute c8Db c8D "op2" 9).toOption.map
      (fun p => (p.2.1, p.2.2.opening_reading, p.2.2.status))
      = some (2, 100, ShiftStatus.ACTIVE) := by
  refine ⟨rfl, ?_, ?_⟩
  · norm_num [validateStockReading]
  · rw [c8_start_ok]
    simp [Except.toOption, c8New]

/-! ## C9 -/

/-- An ACTIVE shift on dispenser 1 opened at reading 0. -/
def c9Sh : Shift :=
  { dispenser_id := 1
    operator_id := "op1"
    shift_type := "MORNING"
    start_time := 0
    opening_reading := 0
    status := .ACTIVE }

/-- Store with dispenser 1 priced 1 and the ACTIVE shift `c9Sh`. -/
def c9Db : DB := { dispensers := [(1, dispP 1)], shifts := [(1, c9Sh)] }

/-- Close request declaring 100 of cash used mid-shift with no reason. -/
def c9E : EndData := { closingReading := 100, actualCash := 0, cashUsed := 100 }

/-- C9: a close request with cashUsed = 100 and no cashUsageReason passes the
route validation and the service, which completes the shift and stores
cash_used = 100 with a null reason — no MissingUsageReason check exists
anywhere on the path; even the repository's own form-validation rule for
cashUsageReason accepts an absent reason, as its comment concedes. -/
theorem C9_cash_used_without_reason_accepted :
    c9E.cashUsed = 100 ∧ c9E.cashUsageReason = none ∧
    (endShiftRoute c9Db 1 c9E 5).toOption.map
      (fun p => (p.2.status, p.2.cash_used, p.2.cash_usage_reason))
      = some (ShiftStatus.COMPLETED, some 100, none) ∧
    cashUsageReasonCheck none = none := by
  refine ⟨rfl, rfl, ?_, rfl⟩
  norm_num [endShiftRoute, endShift, rowFind, closeFields, discrepancyAmountOf,
    totalDigital, dpGet, List.lookup, ratAbs, categoryText, dispFind, dispP, rowUpdate,
    c9Db, c9Sh, c9E, Except.toOption]

/-! ## C10 -/

/-- C10 counterexample: resolving the FLAGGED shift of `dbF` — flagged with
amount 5 and category text 'Excess cash' — with reason 'verified register
count' overwrites the stored reason (first part of the claim), but the
original category is still recoverable from the resolved record: the sign of
the preserved amount yields the category text back, contradicting "no longer
recoverable". -/
theorem C10_counterexample :
    shF.discrepancy = some { amount := 5, reason := "Excess cash", resolved := false } ∧
    (resolveDiscrepancy dbF 1 "verified register count" "mgr" 9).toOption.map
      (fun p => p.2.discrepancy.map (fun d => (d.amount, d.reason, d.resolved)))
      = some (some (5, "verified register count", true)) ∧
    ("verified register count" : String) ≠ "Excess cash" ∧
    categoryText 5 = "Excess cash" := by
  refine ⟨rfl, ?_, by decide, by norm_num [categoryText]⟩
  norm_num [resolveDiscrepancy, rowFind, resolveFields, rowUpdate, dbF, shF,
    Except.toOption]

/-- C10 (amended): a successful resolveDiscrepancy overwrites the discrepancy
record's reason field with the resolver-supplied reason (discarding the
category text stored at close) while preserving the amount, sets
resolved = true and records the resolver and timestamp; the category text is
no longer stored in any field, but whenever the pre-resolution reason was the
category text derived from the amount — as endShift always stores it — it
remains recoverable as categoryText of the preserved amount. -/
theorem C10_resolve_overwrites_reason
    {db db' : DB} {k : ℕ} {r u : String} {now : ℕ} {s s₂ : Shift}
    {d : Discrepancy}
    (hs : rowFind k db.shifts = some s) (hd : s.discrepancy = some d)
    (h : resolveDiscrepancy db k r u now = .ok (db', s₂)) :
    s₂.discrepancy = some { d with reason := r, resolved := true, resolved_by := some u, resolved_at := some now } ∧
    (d.reason = categoryText d.amount →
      s₂.discrepancy.map (fun x => categoryText x.amount) = some d.reason) := by
  obtain ⟨s0, hs0, _, hs2, _⟩ := resolveDiscrepancy_ok h
  rw [hs0] at hs
  simp only [Option.some.injEq] at hs
  subst hs
  have hdisc : s₂.discrepancy =
      some { d with reason := r, resolved := true, resolved_by := some u, resolved_at := some now } := by
    rw [hs2]
    simp [resolveFields, hd]
  refine ⟨hdisc, fun hcat => ?_⟩
  rw [hdisc, Option.map_some', hcat]

/-- C10 witness: the amended theorem on the concrete resolve of `dbF`. -/
theorem C10_witness :
    (rowFind 1 dbF.shifts = some shF ∧
     shF.discrepancy = some { amount := 5, reason := "Excess cash", resolved := false } ∧
     resolveDiscrepancy dbF 1 "verified register count" "mgr" 9
       = .ok ({ dispensers := [(1, dispP 100)],
                shifts := [(1, resolveFields shF "verified register count" "mgr" 9)] },
              resolveFields shF "verified register count" "mgr" 9)) ∧
    ((resolveFields shF "verified register count" "mgr" 9).discrepancy =
      some { amount := 5, reason := "verified register count", resolved := true, resolved_by := some "mgr", resolved_at := some 9 } ∧
     (({ amount := 5, reason := "Excess cash", resolved := false } : Discrepancy).reason
        = categoryText 5 →
      (resolveFields shF "verified register count" "mgr" 9).discrepancy.map
        (fun x => categoryText x.amount) = some "Excess cash")) := by
  have hfind : rowFind 1 dbF.shifts = some shF := by norm_num [rowFind, dbF]
  have hd : shF.discrepancy
      = some { amount := 5, reason := "Excess cash", resolved := false } := rfl
  have hres : resolveDiscrepancy dbF 1 "verified register count" "mgr" 9
      = .ok ({ dispensers := [(1, dispP 100)],
               shifts := [(1, resolveFields shF "verified register count" "mgr" 9)] },
             resolveFields shF "verified register count" "mgr" 9) := by
    norm_num [resolveDiscrepancy, rowFind, rowUpdate, dbF, shF]
  exact ⟨⟨hfind, hd, hres⟩, C10_resolve_overwrites_reason hfind hd hres⟩

end PumpShift
